import Mathlib

/-!
Verification development for the `udev-manager` repository: a shallow
embedding of the event-driven resource pipeline (device discovery, the
Actor-Mux fan-out hub, the Scatter resource router, per-resource instance
tables, and the device-plugin RPC surface), together with theorems that
settle the specification claims against the code.

Go maps are modelled as association lists with map-assignment semantics
(`mapInsert` replaces the entry with an equal key, otherwise appends),
Go interfaces that may be `nil` as `Option`, and fallible Go calls as
`Except`.  Each definition's doc comment names the source location it
is translated from.
-/

namespace UdevMgr

/-- Go map read `m[k]`: the value stored under `k`, or `none` when absent. -/
def mapLookup {α β : Type} [DecidableEq α] : List (α × β) → α → Option β
  | [], _ => none
  | (k, v) :: rest, k' => if k = k' then some v else mapLookup rest k'

/-- Go map assignment `m[k] = v`: replace the entry whose key equals `k`,
or append a fresh entry when no such key is stored. -/
def mapInsert {α β : Type} [DecidableEq α] : List (α × β) → α → β → List (α × β)
  | [], k, v => [(k, v)]
  | (k', v') :: rest, k, v =>
    if k' = k then (k, v) :: rest else (k', v') :: mapInsert rest k v

/-- Go `delete(m, k)`: drop every entry stored under `k` (at most one when
keys are unique, which map assignment preserves). -/
def mapDelete {α β : Type} [DecidableEq α] (m : List (α × β)) (k : α) : List (α × β) :=
  m.filter (fun p => p.1 ≠ k)

/-- The values of a Go map, in entry order (`for _, v := range m`). -/
def mapValues {α β : Type} (m : List (α × β)) : List β :=
  m.map Prod.snd

/-- ASCII whitespace (the characters Go's `strings.TrimSpace` strips from
the repository's ASCII attribute values). -/
def isSpaceChar (c : Char) : Bool :=
  c = ' ' ∨ c = '\t' ∨ c = '\n' ∨ c = '\r'

/-- Go `strings.TrimSpace` on ASCII data: drop leading and trailing
whitespace.  Defined over the character list so it reduces in the
kernel. -/
def strTrim (s : String) : String :=
  String.mk (((s.data.dropWhile isSpaceChar).reverse.dropWhile isSpaceChar).reverse)

/-- Go `strings.Join(elems, sep)`. -/
def strJoin (sep : String) : List String → String
  | [] => ""
  | [s] => s
  | s :: rest => s ++ sep ++ strJoin sep rest

/-- Device metadata held by a `generic` udev device (udev.go:64-69):
kernel syspath (the identity), subsystem, devtype, device node path,
udev properties and sysfs attributes. -/
structure DeviceData where
  syspath : String
  subsystem : String
  devtype : String
  devnode : String
  properties : List (String × String)
  sysattrs : List (String × String)
  deriving DecidableEq, Repr

/-- A udev `Device` (udev.go `generic`): its metadata plus the `parent`
field, which is `nil` (`none`) when not populated at construction
(udev.go:64-69, NewDiscovery udev.go:220-234). -/
inductive Device where
  | mk (data : DeviceData) (parent : Option Device)

/-- The metadata of a device. -/
def Device.data : Device → DeviceData
  | .mk d _ => d

/-- The `parent` field of a device (`nil` when never populated). -/
def Device.parentField : Device → Option Device
  | .mk _ p => p

/-- `generic.Id` (udev.go:71-73): the device identity is its syspath. -/
def Device.id (d : Device) : String :=
  d.data.syspath

/-- `generic.Subsystem` (udev.go:82-84). -/
def Device.subsystem (d : Device) : String :=
  d.data.subsystem

/-- `generic.DevType` (udev.go:86-88). -/
def Device.devType (d : Device) : String :=
  d.data.devtype

/-- `generic.DevNode` (udev.go:90-92). -/
def Device.devNode (d : Device) : String :=
  d.data.devnode

/-- `generic.Properties` (udev.go:103-105): the raw property map. -/
def Device.properties (d : Device) : List (String × String) :=
  d.data.properties

/-- `generic.Property` (udev.go:107-109): property value (empty string
when absent, as libudev's `PropertyValue` returns), whitespace-trimmed. -/
def Device.property (d : Device) (key : String) : String :=
  strTrim ((mapLookup d.data.properties key).getD "")

/-- `generic.SystemAttribute` (udev.go:129-131): sysfs attribute value
(empty when absent), whitespace-trimmed. -/
def Device.systemAttribute (d : Device) (key : String) : String :=
  strTrim ((mapLookup d.data.sysattrs key).getD "")

/-- `generic.PropertyLookup` (udev.go:111-118): the device's own property,
falling back to the parent chain while the value is empty and the
`parent` field is populated. -/
def Device.propertyLookup : Device → String → String
  | .mk data parent, key =>
    let value := strTrim ((mapLookup data.properties key).getD "")
    if value = "" then
      match parent with
      | some p => p.propertyLookup key
      | none => value
    else value

/-- `generic.SystemAttributeLookup` (udev.go:141-148): the device's own
sysfs attribute, falling back to the parent chain while the value is
empty and the `parent` field is populated. -/
def Device.systemAttributeLookup : Device → String → String
  | .mk data parent, key =>
    let value := strTrim ((mapLookup data.sysattrs key).getD "")
    if value = "" then
      match parent with
      | some p => p.systemAttributeLookup key
      | none => value
    else value

/-- `generic.Parent` (udev.go:75-80): when the `parent` field is `nil`,
the code performs `g.udev.DeviceById(Id(g.dev.Syspath()))` — a table
lookup of the device's OWN syspath (not the parent's) — and returns the
result.  Translated verbatim, caching elided (it does not change the
returned value). -/
def genericParent (table : List (String × Device)) (d : Device) : Option Device :=
  match d.parentField with
  | some p => some p
  | none => mapLookup table d.id

/-- `plugin.Health` (partition.go:159-178): the sealed two-variant sum
`Healthy | Unhealthy`. -/
inductive HealthV where
  | healthy
  | unhealthy
  deriving DecidableEq, Repr

/-- `Health.String` (partition.go:168-170, 176-178). -/
def HealthV.toText : HealthV → String
  | .healthy => "Healthy"
  | .unhealthy => "Unhealthy"

/-- One entry of the device-plugin `ContainerAllocateResponse`
(`pluginapi.DeviceSpec`): host path, container path, permissions. -/
structure DeviceSpec where
  hostPath : String
  containerPath : String
  permissions : String
  deriving DecidableEq, Repr

/-- `pluginapi.ContainerAllocateResponse`: device specs, mounts (host
path / container path / read-only), environment map, annotations map. -/
structure CAResponse where
  devices : List DeviceSpec
  mounts : List (String × String × Bool)
  envs : List (String × String)
  annotations : List (String × String)
  deriving DecidableEq, Repr

/-- The empty `&pluginapi.ContainerAllocateResponse{}`. -/
def CAResponse.empty : CAResponse :=
  ⟨[], [], [], []⟩

/-- ASCII upper-casing of one character (the fragment of Go
`strings.ToUpper` the repository's domain and label strings use). -/
def charUpper (c : Char) : Char :=
  if 'a' ≤ c ∧ c ≤ 'z' then Char.ofNat (c.toNat - 32) else c

/-- `sanitizeEnv` (partition.go:46-49): replace `.` and `-` with `_`,
then upper-case. -/
def sanitizeEnv (s : String) : String :=
  String.mk (s.data.map (fun c => charUpper (if c = '.' ∨ c = '-' then '_' else c)))

/-- `partition.envName` (partition.go:51-53). -/
def partitionEnvName (domain label env : String) : String :=
  sanitizeEnv domain ++ "_PART_" ++ sanitizeEnv label ++ "_" ++ sanitizeEnv env

/-- Go `path.Join` restricted to non-empty components that need no
cleaning (the only way the repository calls it): join with `/`. -/
def pathJoin (elems : List String) : String :=
  strJoin "/" elems

/-- `partition.Allocate` (partition.go:55-85): one device spec mapping the
device node to `/dev/allocated/<domain>/part/<label>` with `rw`
permissions, plus environment entries for the container path, the disk
WWID and model from sysfs attributes, and the serial (sysfs attribute,
falling back to the `ID_SERIAL_SHORT` property, omitted when empty). -/
def partitionAllocate (domain label : String) (dev : Device) : CAResponse :=
  let containerPath := pathJoin ["/dev", "allocated", domain, "part", label]
  let envs0 := mapInsert [] (partitionEnvName domain label "PATH") containerPath
  let envs1 := mapInsert envs0 (partitionEnvName domain label "DISK_ID")
    (dev.systemAttributeLookup "wwid")
  let envs2 := mapInsert envs1 (partitionEnvName domain label "DISK_MODEL")
    (dev.systemAttributeLookup "model")
  let serial0 := dev.systemAttributeLookup "serial"
  let serial := if serial0 = "" then dev.propertyLookup "ID_SERIAL_SHORT" else serial0
  let envs3 :=
    if serial ≠ "" then
      mapInsert envs2 (partitionEnvName domain label "DISK_SERIAL") serial
    else envs2
  { devices := [⟨dev.devNode, containerPath, "rw"⟩]
    mounts := []
    envs := envs3
    annotations := [] }

/-- `plugin.Instance` values (the closed set of implementations in the
repository): `partition` (partition.go:17-21), `networkBandwidth`
(mux.go appendix:274-278), `netRdma` (net_rdma.go:16-22), and the
`healthInstance` wrapper (partition.go:189-192) that pins a health
verdict over an inner instance. -/
inductive InstanceV where
  | part (domain label : String) (dev : Device)
  | netbw (ifname : String) (idx : Nat) (dev : Device)
  | netrdma (domain ifname : String) (idx : Nat) (dev : Device) (assocDevs : List String)
  | wrapped (inner : InstanceV) (pinned : HealthV)

/-- `Instance.Id` for each implementation: partition label
(partition.go:23-25), `<ifname>_<idx>` for network shares
(mux.go appendix:280-282, net_rdma.go:24-26), and the inner identity for
`healthInstance` (partition.go:194-196). -/
def InstanceV.id : InstanceV → String
  | .part _ label _ => label
  | .netbw ifname idx _ => ifname ++ "_" ++ toString idx
  | .netrdma _ ifname idx _ _ => ifname ++ "_" ++ toString idx
  | .wrapped inner _ => inner.id

/-- `Instance.Health` for each implementation: a partition always reports
`Healthy` (partition.go:27-29, live probe unimplemented); the network
shares report `Healthy` iff the `operstate` sysfs attribute is `"up"`
(mux.go appendix:284-289, net_rdma.go:28-33); `healthInstance.Health`
(partition.go:198-203) defers to the inner instance's live probe when
the pinned verdict is `Healthy` and otherwise returns the pinned
verdict. -/
def InstanceV.health : InstanceV → HealthV
  | .part _ _ _ => .healthy
  | .netbw _ _ dev => if dev.systemAttribute "operstate" = "up" then .healthy else .unhealthy
  | .netrdma _ _ _ dev _ => if dev.systemAttribute "operstate" = "up" then .healthy else .unhealthy
  | .wrapped inner pinned => if pinned = .healthy then inner.health else pinned

/-- `Instance.Allocate` for each implementation (all return a nil error):
partition.go:55-85, mux.go appendix:295-299 (empty response),
net_rdma.go:39-52 (one `rw` spec per associated RDMA char device,
host path = container path), healthInstance delegates
(partition.go:209-211). -/
def InstanceV.allocate : InstanceV → CAResponse
  | .part domain label dev => partitionAllocate domain label dev
  | .netbw _ _ _ => CAResponse.empty
  | .netrdma _ _ _ _ assocDevs =>
    { CAResponse.empty with
      devices := assocDevs.map (fun d => ⟨d, d, "rw"⟩) }
  | .wrapped inner _ => inner.allocate

/-- `plugin.HealthEvent` (partition.go:215-218): an instance delta plus a
health verdict. -/
structure HealthEventV where
  instances : List InstanceV
  health : HealthV

/-- The body of `resource.run`'s event loop (partition.go:258-263): each
instance of the delta is upserted into the table under its identity —
`r.instances[instance.Id()] = instance`.  Note that the event's health
verdict is not consulted. -/
def mergeEvent (table : List (String × InstanceV)) (ev : HealthEventV) :
    List (String × InstanceV) :=
  ev.instances.foldl (fun t inst => mapInsert t inst.id inst) table

/-- `resource.run` (partition.go:251-264) restricted to its state: the
instance table after the authority goroutine has drained a finite queue
of health events. -/
def resourceRun (table : List (String × InstanceV)) (evs : List HealthEventV) :
    List (String × InstanceV) :=
  evs.foldl mergeEvent table

/-- Seeding of a new resource's table from mapped instances
(scatter.go:76-78): `res.instances[instance.Id()] = instance` over the
mapper's output, starting from the empty map. -/
def seedInstances (insts : List InstanceV) : List (String × InstanceV) :=
  insts.foldl (fun t inst => mapInsert t inst.id inst) []

/-- Modelled from the spec (§8, first testable property): the instance
table obtained by folding each event's instance list over the seeded
initial table with upsert-by-identity semantics. -/
def specFoldTable (table : List (String × InstanceV)) (evs : List HealthEventV) :
    List (String × InstanceV) :=
  evs.foldl (fun t ev => ev.instances.foldl (fun t' inst => mapInsert t' inst.id inst) t) table

/-- `udev.Event` (discovery.go:29-49): the sealed union
`Init(devices) | Added(device) | Removed(device)`.  `Removed` carries an
interface value read out of the table, which may be `nil`
(udev.go:338-342), hence `Option Device`. -/
inductive EventV where
  | init (devices : List Device)
  | added (dev : Device)
  | removed (dev : Option Device)

/-- The inputs multiplexed by the discovery authority goroutine
(udev.go:325-381): kernel device notifications with their action string,
and the three rendezvous requests (state snapshot, new subscription
identified by a sink id, stop). -/
inductive MonInput where
  | kernel (action : String) (dev : Device)
  | reqState (filter : Device → Bool)
  | reqNewSub (sid : Nat)
  | reqStop

/-- The externally visible actions one loop iteration performs, in program
order: submitting an event to the internal Actor-Mux, sending `Init`
directly to one sink, registering a sink on the mux, replying to a
rendezvous request. -/
inductive MonAction where
  | publish (ev : EventV)
  | sendInit (sid : Nat) (devs : List Device)
  | register (sid : Nat)
  | reply

/-- State owned by the discovery authority goroutine (udev.go:197-203):
the device table, the set of sinks registered on the internal mux (in
registration order), and whether the loop has terminated. -/
structure MonState where
  table : List (String × Device)
  subs : List Nat
  stopped : Bool

/-- One iteration of `udevDiscovery.monitor`'s select loop
(udev.go:325-381), returning the updated table/stopped state and the
actions performed in program order.  Sink registration is returned as a
`register` action (its effect on `subs` is applied by `applyActions`).
The kernel cases follow udev.go:329-343; `reqState` replies with a
filtered snapshot (udev.go:346-353, reply payload elided); `reqNewSub`
sends `Init` with the full current table, registers the sink, then
replies (udev.go:354-364); `reqStop` replies and terminates
(udev.go:365-367). -/
def monStep (st : MonState) (inp : MonInput) : MonState × List MonAction :=
  if st.stopped then (st, []) else
  match inp with
  | .kernel action dev =>
    if action = "add" ∨ action = "online" then
      ({ st with table := mapInsert st.table dev.id dev }, [.publish (.added dev)])
    else if action = "remove" ∨ action = "offline" then
      let d := mapLookup st.table dev.id
      ({ st with table := mapDelete st.table dev.id }, [.publish (.removed d)])
    else (st, [])
  | .reqState _ => (st, [.reply])
  | .reqNewSub sid =>
    (st, [.sendInit sid (mapValues st.table), .register sid, .reply])
  | .reqStop => ({ st with stopped := true }, [.reply])

/-- Interpret a list of monitor actions sequentially against the current
subscriber list: a `publish` is delivered to every sink registered at
that moment (Mux.run, mux.go:193-198), `sendInit` delivers an `Init`
event to the named sink directly, `register` appends the sink.  Returns
the updated subscriber list and the deliveries `(sink, event)` in
order. -/
def applyActions : List Nat → List MonAction → List Nat × List (Nat × EventV)
  | subs, [] => (subs, [])
  | subs, .publish ev :: rest =>
    let (subs', out) := applyActions subs rest
    (subs', subs.map (fun s => (s, ev)) ++ out)
  | subs, .sendInit sid devs :: rest =>
    let (subs', out) := applyActions subs rest
    (subs', (sid, .init devs) :: out)
  | subs, .register sid :: rest => applyActions (subs ++ [sid]) rest
  | subs, .reply :: rest => applyActions subs rest

/-- Run the monitor over a finite input queue, collecting every delivery
`(sink, event)` in order.  This is the serialized semantics of the
authority goroutine: inputs are processed strictly in arrival order
(spec §5). -/
def monTrace : MonState → List MonInput → MonState × List (Nat × EventV)
  | st, [] => (st, [])
  | st, inp :: rest =>
    let (st1, acts) := monStep st inp
    let (subs', out1) := applyActions st.subs acts
    let (st2, out2) := monTrace { st1 with subs := subs' } rest
    (st2, out1 ++ out2)

/-- The `publish` payloads of an action list: the events submitted to the
internal Actor-Mux. -/
def pubsOf (acts : List MonAction) : List EventV :=
  acts.filterMap (fun a =>
    match a with
    | .publish ev => some ev
    | _ => none)

/-- The events the monitor publishes on the internal Actor-Mux while
processing an input queue (`subs` plays no role in what is
published). -/
def monPubs : MonState → List MonInput → List EventV
  | _, [] => []
  | st, inp :: rest =>
    let (st1, acts) := monStep st inp
    pubsOf acts ++ monPubs st1 rest

/-- The deliveries addressed to one sink, in order. -/
def deliveriesTo (sid : Nat) (out : List (Nat × EventV)) : List EventV :=
  out.filterMap (fun p => if p.1 = sid then some p.2 else none)

/-- `Mux` configuration fields relevant to submission (mux.go:121-130):
the submit timeout in milliseconds and the input buffer size. -/
structure MuxConfig where
  submitTimeoutMs : Nat
  inBufSize : Nat
  deriving DecidableEq, Repr

/-- `mux.Option` values that touch the configuration: `Buffered(size)`
(mux.go:136-146) and `WithLogger` (mux.go:148-158, no effect on these
fields). -/
inductive MuxOption where
  | buffered (size : Nat)
  | withLogger

/-- `Option.apply` (mux.go:140-142, 152-154). -/
def applyMuxOption (cfg : MuxConfig) : MuxOption → MuxConfig
  | .buffered n => { cfg with inBufSize := n }
  | .withLogger => cfg

/-- `mux.Make` (mux.go:160-180) restricted to configuration: the submit
timeout starts at `1 * time.Second` and the options are applied in
order. -/
def makeMuxConfig (opts : List MuxOption) : MuxConfig :=
  opts.foldl applyMuxOption { submitTimeoutMs := 1000, inBufSize := 0 }

/-- Outcome of `Mux.Submit`. -/
inductive SubmitResult where
  | accepted
  | timedOut (afterMs : Nat)
  deriving DecidableEq, Repr

/-- `Mux.Submit` (mux.go:226-233): a `select` racing the queue send
against `time.After(submitTimeout)`.  The scheduler is abstracted by
`queueAccepts`: whether the send completes within the timeout.  When it
does, Submit returns nil; otherwise it returns a timeout error after
the configured wait — it never blocks past the timeout. -/
def muxSubmit (cfg : MuxConfig) (queueAccepts : Bool) : SubmitResult :=
  if queueAccepts then .accepted else .timedOut cfg.submitTimeoutMs

/-- A subscriber sink for the fan-out model: the values it has received
and whether its `Submit` currently fails. -/
structure SinkSt (α : Type) where
  received : List α
  failing : Bool

/-- One `Sink.Submit` call: a failing sink returns an error and records
nothing; otherwise the value is appended and nil is returned. -/
def sinkSubmit {α : Type} (s : SinkSt α) (v : α) : SinkSt α × Bool :=
  if s.failing then (s, false) else ({ s with received := s.received ++ [v] }, true)

/-- The fan-out loop of `Mux.run` for one submitted value
(mux.go:193-198): `Submit` is attempted on every registered sink; an
error is logged and the loop continues with the remaining sinks. -/
def muxFanout {α : Type} (sinks : List (SinkSt α)) (v : α) : List (SinkSt α) :=
  sinks.map (fun s => (sinkSubmit s v).1)

/-- `plugin.ResourceTemplate` (partition.go:227-230): the (domain,
name-prefix) pair; `pfx` models the Go field `Prefix`.  Two templates
are equal iff both fields are (Go map key equality on the struct). -/
structure ResourceTemplateV where
  domain : String
  pfx : String
  deriving DecidableEq, Repr

/-- `resource.Name` (partition.go:238-240): `Domain + "/" + Prefix`. -/
def resourceName (tpl : ResourceTemplateV) : String :=
  tpl.domain ++ "/" ++ tpl.pfx

/-- The pure inputs of a `Scatter` (scatter.go:10-15): the templater and
mapper adapter functions (`FromDevice`, Go signature `(T, error)` with
a possibly-nil `*ResourceTemplate`), and an oracle telling whether
`Registry.Add` succeeds for a given resource name (abstracting plugin
creation and kubelet registration). -/
structure ScatterCfg where
  templater : Device → Except String (Option ResourceTemplateV)
  mapper : Device → Except String (List InstanceV)
  regOk : String → Bool

/-- The state a `Scatter` and its resources own: the template→resource
routing map (scatter.go:14, resources named by allocation order), the
instance table of each resource, and the next fresh resource id. -/
structure ScatterState where
  routes : List (ResourceTemplateV × Nat)
  store : List (Nat × List (String × InstanceV))
  nextRid : Nat

/-- Submitting a `HealthEvent` to an existing resource and letting its
authority goroutine merge it (scatter.go:63-66 composed with
partition.go:258-263). -/
def storeSubmit (store : List (Nat × List (String × InstanceV))) (rid : Nat)
    (ev : HealthEventV) : List (Nat × List (String × InstanceV)) :=
  match mapLookup store rid with
  | some t => mapInsert store rid (mergeEvent t ev)
  | none => store

/-- `Scatter.added` (scatter.go:36-86): nil device, templater error, nil
template, or mapper error each end processing; an existing route gets a
`HealthEvent{instances, Healthy}`; otherwise a new resource is seeded
with the instances, and only when `Registry.Add` succeeds is the route
recorded. -/
def scatterAdded (cfg : ScatterCfg) (st : ScatterState) (dev : Option Device) :
    ScatterState :=
  match dev with
  | none => st
  | some dev =>
    match cfg.templater dev with
    | .error _ => st
    | .ok none => st
    | .ok (some tpl) =>
      match cfg.mapper dev with
      | .error _ => st
      | .ok insts =>
        match mapLookup st.routes tpl with
        | some rid => { st with store := storeSubmit st.store rid ⟨insts, .healthy⟩ }
        | none =>
          if cfg.regOk (resourceName tpl) then
            { routes := mapInsert st.routes tpl st.nextRid
              store := mapInsert st.store st.nextRid (seedInstances insts)
              nextRid := st.nextRid + 1 }
          else st

/-- `Scatter.removed` (scatter.go:88-122): same guards; an existing route
gets a `HealthEvent{instances, Unhealthy}`; a missing route is logged
and ignored. -/
def scatterRemoved (cfg : ScatterCfg) (st : ScatterState) (dev : Option Device) :
    ScatterState :=
  match dev with
  | none => st
  | some dev =>
    match cfg.templater dev with
    | .error _ => st
    | .ok none => st
    | .ok (some tpl) =>
      match cfg.mapper dev with
      | .error _ => st
      | .ok insts =>
        match mapLookup st.routes tpl with
        | some rid => { st with store := storeSubmit st.store rid ⟨insts, .unhealthy⟩ }
        | none => st

/-- `Scatter.run` (scatter.go:132-145): `Init` feeds each device through
`added`, `Added`/`Removed` dispatch to their handlers. -/
def scatterStep (cfg : ScatterCfg) (st : ScatterState) : EventV → ScatterState
  | .init devs => devs.foldl (fun s d => scatterAdded cfg s (some d)) st
  | .added dev => scatterAdded cfg st (some dev)
  | .removed dev => scatterRemoved cfg st dev

/-- Registry state (udev.go appendix:412-417): the plugin set keyed by
resource name (plugins named by creation order). -/
structure RegState where
  plugins : List (String × Nat)
  nextPid : Nat

/-- `Registry.Add` (udev.go appendix:538-555): create the plugin (may
fail), `LoadOrStore` it under the resource name (an already-present
name is an error and nothing is stored), then register with the
kubelet; a registration failure returns an error but the stored plugin
is NOT removed. -/
def registryAdd (newPluginOk registerOk : Bool) (st : RegState) (name : String) :
    RegState × Except String Unit :=
  if newPluginOk = false then (st, .error "failed to create plugin")
  else
    match mapLookup st.plugins name with
    | some _ => (st, .error "resource with name already exists")
    | none =>
      let st' : RegState :=
        { plugins := mapInsert st.plugins name st.nextPid, nextPid := st.nextPid + 1 }
      if registerOk then (st', .ok ()) else (st', .error "failed to register")

/-- `Registry.Healthz` (udev.go appendix:512-533): probe every plugin in
the set; the names whose probe fails make up the failure report. -/
def healthzUnhealthy (probeFails : Nat → Bool) (st : RegState) : List String :=
  st.plugins.filterMap (fun p => if probeFails p.2 then some p.1 else none)

/-- `Registry.hup` (udev.go appendix:454-468): every plugin currently in
the set is stopped, recreated and re-registered; this is the list of
resource names it iterates. -/
def hupTargets (st : RegState) : List String :=
  st.plugins.map Prod.fst

/-- Errors `plugin.Allocate` surfaces to the RPC caller
(part_004:142-150).  The `Internal` branch is unreachable through this
model because every `Instance.Allocate` implementation in the
repository returns a nil error. -/
inductive AllocErr where
  | notFound (id : String)
  deriving DecidableEq, Repr

/-- The loop body of `mergeResponses` (part_004:103-129): append device
specs and mounts, key-overwrite union of the environment and annotation
maps. -/
def mergeStep (acc r : CAResponse) : CAResponse :=
  { devices := acc.devices ++ r.devices
    mounts := acc.mounts ++ r.mounts
    envs := r.envs.foldl (fun m kv => mapInsert m kv.1 kv.2) acc.envs
    annotations := r.annotations.foldl (fun m kv => mapInsert m kv.1 kv.2) acc.annotations }

/-- `mergeResponses(responses...)` (part_004:103-129): fold the responses
into a fresh empty response. -/
def mergeResponsesList (rs : List CAResponse) : CAResponse :=
  rs.foldl mergeStep CAResponse.empty

/-- The inner device-ID loop of `plugin.Allocate` (part_004:140-152):
look each id up in the instance snapshot; a missing id returns
`NotFound` for the whole RPC; otherwise the instance's allocation is
merged into the sub-request's accumulated response. -/
def allocateSubGo (instances : List (String × InstanceV)) (acc : CAResponse) :
    List String → Except AllocErr CAResponse
  | [] => .ok acc
  | id :: rest =>
    match mapLookup instances id with
    | none => .error (.notFound id)
    | some inst => allocateSubGo instances (mergeResponsesList [acc, inst.allocate]) rest

/-- The outer sub-request loop of `plugin.Allocate` (part_004:137-154):
container responses are appended in request order; any error aborts the
whole RPC. -/
def pluginAllocateGo (instances : List (String × InstanceV)) (acc : List CAResponse) :
    List (List String) → Except AllocErr (List CAResponse)
  | [] => .ok acc
  | ids :: rest =>
    match allocateSubGo instances CAResponse.empty ids with
    | .error e => .error e
    | .ok r => pluginAllocateGo instances (acc ++ [r]) rest

/-- `plugin.Allocate` (part_004:131-158): take the `Resource.Instances()`
snapshot and process every container sub-request against it. -/
def pluginAllocate (instances : List (String × InstanceV))
    (requests : List (List String)) : Except AllocErr (List CAResponse) :=
  pluginAllocateGo instances [] requests

/-- Modelled from the spec (§8 allocate sentence): per-sub-request result
when every identity resolves — the merge (by append / key-overwrite
union) of each requested instance's allocation, in device-ID order. -/
def specSubResponse (instances : List (String × InstanceV)) (ids : List String) :
    CAResponse :=
  ids.foldl
    (fun acc id =>
      match mapLookup instances id with
      | none => acc
      | some inst => mergeResponsesList [acc, inst.allocate])
    CAResponse.empty

/-- The index of the first occurrence of `lit` in `s` (Go
`strings.Index` / the leftmost match position of a literal). -/
def findLitIdx (lit s : String) : Option Nat :=
  (List.range (s.data.length + 1)).find? (fun i => List.isPrefixOf lit.data (s.data.drop i))

/-- Go `regexp.FindStringSubmatch` specialized to the pattern shape
`lit(.*)` with `lit` a metacharacter-free literal (the shape every
matcher in the repository's configuration examples uses, e.g.
`ydb_disk_(.*)`): the leftmost match runs from the first occurrence of
`lit` to the end of the string, the single capture group greedily takes
everything after `lit`; no occurrence yields the empty slice. -/
def findStringSubmatchLit (lit s : String) : List String :=
  match findLitIdx lit s with
  | none => []
  | some i => [String.mk (s.data.drop i), String.mk (s.data.drop (i + lit.data.length))]

/-- `PartitionLabelMatcherTemplater` (partition.go:87-113): block
subsystem, `partition` devtype, raw `PARTNAME` property present and
matched; the template prefix is `part-` followed by the capture groups
joined by `_`. -/
def partitionTemplater (domain lit : String) (dev : Device) :
    Except String (Option ResourceTemplateV) :=
  if dev.subsystem ≠ "block" then .ok none
  else if dev.devType ≠ "partition" then .ok none
  else
    match mapLookup dev.properties "PARTNAME" with
    | none => .ok none
    | some partlabel =>
      match findStringSubmatchLit lit partlabel with
      | [] => .ok none
      | ms =>
        .ok (some ⟨domain, "part-" ++ strJoin "_" ms.tail⟩)

/-- `PartitionLabelMatcherInstances` (partition.go:115-147): same guards;
the single instance's label is the first capture group when the match
has one, otherwise the raw `PARTNAME` value. -/
def partitionInstanceList (domain lit : String) (dev : Device) :
    Except String (List InstanceV) :=
  if dev.subsystem ≠ "block" then .ok []
  else if dev.devType ≠ "partition" then .ok []
  else
    match mapLookup dev.properties "PARTNAME" with
    | none => .ok []
    | some partlabel =>
      match findStringSubmatchLit lit partlabel with
      | [] => .ok []
      | ms =>
        let label := if ms.length > 1 then ms.getD 1 partlabel else partlabel
        .ok [.part domain label dev]

/-- Concrete example device: the `sda1` partition of the spec's scenario
(§8), with partition label `ydb_disk_01` and sysfs identification
attributes. -/
def sda1Data : DeviceData :=
  { syspath := "/sys/devices/pci0/host0/block/sda/sda1"
    subsystem := "block"
    devtype := "partition"
    devnode := "/dev/sda1"
    properties := [("PARTNAME", "ydb_disk_01")]
    sysattrs := [("wwid", "naa.5000c500a1b2c3d4"), ("model", "SAMPLE-SSD"),
                 ("serial", "S1234567")] }

/-- The `sda1` device value, parent not populated at construction. -/
def sda1 : Device := .mk sda1Data none

/-- `sda1` without a `serial` sysfs attribute but with the
`ID_SERIAL_SHORT` property, exercising the serial fallback. -/
def sda1Fallback : Device :=
  .mk { sda1Data with
        properties := [("PARTNAME", "ydb_disk_01"), ("ID_SERIAL_SHORT", "SHORT99")]
        sysattrs := [("wwid", "naa.5000c500a1b2c3d4"), ("model", "SAMPLE-SSD")] } none

/-- `sda1` with neither serial source, exercising the omission branch. -/
def sda1NoSerial : Device :=
  .mk { sda1Data with
        sysattrs := [("wwid", "naa.5000c500a1b2c3d4"), ("model", "SAMPLE-SSD")] } none

/-- The parent disk `sda` of the example partition. -/
def sdaDev : Device :=
  .mk { syspath := "/sys/devices/pci0/host0/block/sda"
        subsystem := "block"
        devtype := "disk"
        devnode := "/dev/sda"
        properties := []
        sysattrs := [] } none

/-- The partition instance the adapter derives from `sda1`. -/
def part01 : InstanceV := .part "ydb.tech" "01" sda1

/-- Plain example devices for monitor traces. -/
def devA : Device :=
  .mk { syspath := "/sys/a", subsystem := "block", devtype := "disk",
        devnode := "/dev/a", properties := [], sysattrs := [] } none

/-- A second plain example device. -/
def devB : Device :=
  .mk { syspath := "/sys/b", subsystem := "block", devtype := "disk",
        devnode := "/dev/b", properties := [], sysattrs := [] } none

/-- A concrete Scatter configuration for witnesses: `devA` is routed to
template `part-a`, every other device to `part-b`; every device maps to
the example partition instance; registration always succeeds. -/
def cfgW : ScatterCfg :=
  { templater := fun d =>
      .ok (some (if Device.id d = "/sys/a" then ⟨"ydb.tech", "part-a"⟩
                 else ⟨"ydb.tech", "part-b"⟩))
    mapper := fun _ => .ok [part01]
    regOk := fun _ => true }

/-- Lookup after a map assignment: the assigned key reads the new value,
every other key is untouched. -/
theorem mapLookup_mapInsert {α β : Type} [DecidableEq α]
    (m : List (α × β)) (k k' : α) (v : β) :
    mapLookup (mapInsert m k v) k' = if k = k' then some v else mapLookup m k' := by
  induction m with
  | nil => simp [mapInsert, mapLookup]
  | cons p rest ih =>
    obtain ⟨k0, v0⟩ := p
    by_cases h0 : k0 = k
    · subst h0
      by_cases h1 : k0 = k'
      · subst h1; simp [mapInsert, mapLookup]
      · simp [mapInsert, mapLookup, h1]
    · by_cases h1 : k0 = k'
      · subst h1
        have hk : k ≠ k0 := fun h => h0 h.symm
        simp [mapInsert, mapLookup, h0, hk]
      · simp [mapInsert, mapLookup, h0, h1, ih]

/-- A key present in an inserted map was the inserted key or was already
present. -/
theorem mem_keys_mapInsert {α β : Type} [DecidableEq α]
    (m : List (α × β)) (k a : α) (v : β)
    (h : a ∈ (mapInsert m k v).map Prod.fst) :
    a = k ∨ a ∈ m.map Prod.fst := by
  induction m with
  | nil => simpa [mapInsert] using h
  | cons p rest ih =>
    obtain ⟨k0, v0⟩ := p
    by_cases h0 : k0 = k
    · subst h0
      rw [show mapInsert ((k0, v0) :: rest) k0 v = (k0, v) :: rest by simp [mapInsert],
        List.map_cons, List.mem_cons] at h
      rcases h with h1 | h1
      · exact Or.inl h1
      · exact Or.inr (by simp [h1])
    · rw [show mapInsert ((k0, v0) :: rest) k v = (k0, v0) :: mapInsert rest k v by
        simp [mapInsert, h0], List.map_cons, List.mem_cons] at h
      rcases h with h1 | h1
      · exact Or.inr (by simp [h1])
      · rcases ih h1 with h2 | h2
        · exact Or.inl h2
        · exact Or.inr (by simp [h2])

/-- Map assignment preserves uniqueness of keys. -/
theorem nodup_keys_mapInsert {α β : Type} [DecidableEq α]
    (m : List (α × β)) (k : α) (v : β)
    (h : (m.map Prod.fst).Nodup) :
    ((mapInsert m k v).map Prod.fst).Nodup := by
  induction m with
  | nil => simp [mapInsert]
  | cons p rest ih =>
    obtain ⟨k0, v0⟩ := p
    simp only [List.map_cons, List.nodup_cons] at h
    by_cases h0 : k0 = k
    · subst h0
      simpa [mapInsert] using h
    · have hrec := ih h.2
      have hnotin : k0 ∉ (mapInsert rest k v).map Prod.fst := by
        intro hmem
        rcases mem_keys_mapInsert rest k k0 v hmem with h1 | h1
        · exact h0 h1
        · exact h.1 h1
      simpa [mapInsert, h0] using And.intro hnotin hrec

/-- Deleting an absent key leaves a Go map unchanged. -/
theorem mapDelete_absent {α β : Type} [DecidableEq α]
    (m : List (α × β)) (k : α) (h : mapLookup m k = none) :
    mapDelete m k = m := by
  induction m with
  | nil => simp [mapDelete]
  | cons p rest ih =>
    obtain ⟨k0, v0⟩ := p
    by_cases h0 : k0 = k
    · simp [mapLookup, h0] at h
    · simp only [mapLookup, h0, if_false, if_neg h0] at h
      simpa [mapDelete, h0] using ih h

/-- The inserted binding is an entry of the resulting map. -/
theorem mem_mapInsert_self {α β : Type} [DecidableEq α]
    (m : List (α × β)) (k : α) (v : β) :
    (k, v) ∈ mapInsert m k v := by
  induction m with
  | nil => simp [mapInsert]
  | cons p rest ih =>
    obtain ⟨k0, v0⟩ := p
    by_cases h0 : k0 = k
    · simp [mapInsert, h0]
    · simp [mapInsert, h0, ih]

/-- Folding an instance list into a table does not touch keys outside the
list's identities. -/
theorem lookup_instFold_notMem (l : List InstanceV) (t : List (String × InstanceV))
    (k : String) (h : ∀ i ∈ l, i.id ≠ k) :
    mapLookup (l.foldl (fun t' i => mapInsert t' i.id i) t) k = mapLookup t k := by
  induction l generalizing t with
  | nil => rfl
  | cons i rest ih =>
    have hi : i.id ≠ k := h i (by simp)
    have hrest : ∀ j ∈ rest, j.id ≠ k := fun j hj => h j (by simp [hj])
    calc mapLookup ((i :: rest).foldl (fun t' j => mapInsert t' j.id j) t) k
        = mapLookup (rest.foldl (fun t' j => mapInsert t' j.id j) (mapInsert t i.id i)) k := rfl
      _ = mapLookup (mapInsert t i.id i) k := ih (mapInsert t i.id i) hrest
      _ = mapLookup t k := by rw [mapLookup_mapInsert]; simp [hi]

/-- For a key among the list's identities, the fold's result at that key
does not depend on the starting table. -/
theorem lookup_instFold_mem (l : List InstanceV) (k : String)
    (h : k ∈ l.map InstanceV.id) (t0 t1 : List (String × InstanceV)) :
    mapLookup (l.foldl (fun t' i => mapInsert t' i.id i) t0) k
      = mapLookup (l.foldl (fun t' i => mapInsert t' i.id i) t1) k := by
  induction l generalizing t0 t1 with
  | nil => simp at h
  | cons i rest ih =>
    by_cases hr : k ∈ rest.map InstanceV.id
    · exact ih hr (mapInsert t0 i.id i) (mapInsert t1 i.id i)
    · have hik : i.id = k := by
        rw [List.map_cons, List.mem_cons] at h
        rcases h with h1 | h1
        · exact h1.symm
        · exact absurd h1 hr
      have hrest : ∀ j ∈ rest, j.id ≠ k := by
        intro j hj hjk
        exact hr (by simpa [hjk] using List.mem_map_of_mem InstanceV.id hj)
      calc mapLookup ((i :: rest).foldl (fun t' j => mapInsert t' j.id j) t0) k
          = mapLookup (mapInsert t0 i.id i) k :=
            lookup_instFold_notMem rest (mapInsert t0 i.id i) k hrest
        _ = some i := by rw [mapLookup_mapInsert]; simp [hik]
        _ = mapLookup (mapInsert t1 i.id i) k := by rw [mapLookup_mapInsert]; simp [hik]
        _ = mapLookup ((i :: rest).foldl (fun t' j => mapInsert t' j.id j) t1) k :=
            (lookup_instFold_notMem rest (mapInsert t1 i.id i) k hrest).symm

/-- Folding an instance list into a table preserves key uniqueness. -/
theorem nodup_keys_instFold (l : List InstanceV) (t : List (String × InstanceV))
    (h : (t.map Prod.fst).Nodup) :
    ((l.foldl (fun t' i => mapInsert t' i.id i) t).map Prod.fst).Nodup := by
  induction l generalizing t with
  | nil => exact h
  | cons i rest ih => exact ih _ (nodup_keys_mapInsert t i.id i h)

/-- A seeded resource table has unique keys. -/
theorem nodup_keys_seedInstances (l : List InstanceV) :
    ((seedInstances l).map Prod.fst).Nodup :=
  nodup_keys_instFold l [] (by simp)

/-- Draining health events preserves key uniqueness of the table. -/
theorem nodup_keys_resourceRun (t : List (String × InstanceV)) (evs : List HealthEventV)
    (h : (t.map Prod.fst).Nodup) :
    ((resourceRun t evs).map Prod.fst).Nodup := by
  induction evs generalizing t with
  | nil => exact h
  | cons ev rest ih => exact ih _ (nodup_keys_instFold ev.instances t h)

/-- Claim C1: for every Resource seeded from mapped instances and every
finite health-event sequence drained by its authority loop, the
resulting instance table equals the fold of the events' instance lists
over the seeded table with upsert-by-identity semantics; the table
never holds two entries with the same identity; and two events over
disjoint identity sets produce the same table (as a key-value map) in
either order. -/
theorem C1_resource_table_upsert (insts : List InstanceV) (evs : List HealthEventV) :
    resourceRun (seedInstances insts) evs = specFoldTable (seedInstances insts) evs
    ∧ ((resourceRun (seedInstances insts) evs).map Prod.fst).Nodup
    ∧ (∀ e1 e2 : HealthEventV,
        (∀ i ∈ e1.instances, ∀ j ∈ e2.instances, i.id ≠ j.id) →
        ∀ k, mapLookup (resourceRun (seedInstances insts) [e1, e2]) k
           = mapLookup (resourceRun (seedInstances insts) [e2, e1]) k) := by
  refine ⟨rfl, nodup_keys_resourceRun _ _ (nodup_keys_seedInstances insts), ?_⟩
  intro e1 e2 hdisj k
  have h12 : resourceRun (seedInstances insts) [e1, e2]
      = mergeEvent (mergeEvent (seedInstances insts) e1) e2 := rfl
  have h21 : resourceRun (seedInstances insts) [e2, e1]
      = mergeEvent (mergeEvent (seedInstances insts) e2) e1 := rfl
  rw [h12, h21]
  by_cases hk1 : k ∈ e1.instances.map InstanceV.id
  · obtain ⟨i, hi, hik⟩ := List.mem_map.mp hk1
    have hne2 : ∀ j ∈ e2.instances, j.id ≠ k := by
      intro j hj hjk
      exact hdisj i hi j hj (hik.trans hjk.symm)
    calc mapLookup (mergeEvent (mergeEvent (seedInstances insts) e1) e2) k
        = mapLookup (mergeEvent (seedInstances insts) e1) k :=
          lookup_instFold_notMem e2.instances _ k hne2
      _ = mapLookup (mergeEvent (mergeEvent (seedInstances insts) e2) e1) k :=
          lookup_instFold_mem e1.instances k hk1 _ _
  · have hne1 : ∀ i ∈ e1.instances, i.id ≠ k := by
      intro i hi hik
      exact hk1 (hik ▸ List.mem_map_of_mem InstanceV.id hi)
    by_cases hk2 : k ∈ e2.instances.map InstanceV.id
    · calc mapLookup (mergeEvent (mergeEvent (seedInstances insts) e1) e2) k
          = mapLookup (mergeEvent (seedInstances insts) e2) k :=
            lookup_instFold_mem e2.instances k hk2 _ _
        _ = mapLookup (mergeEvent (mergeEvent (seedInstances insts) e2) e1) k :=
            (lookup_instFold_notMem e1.instances _ k hne1).symm
    · have hne2 : ∀ j ∈ e2.instances, j.id ≠ k := by
        intro j hj hjk
        exact hk2 (hjk ▸ List.mem_map_of_mem InstanceV.id hj)
      calc mapLookup (mergeEvent (mergeEvent (seedInstances insts) e1) e2) k
          = mapLookup (mergeEvent (seedInstances insts) e1) k :=
            lookup_instFold_notMem e2.instances _ k hne2
        _ = mapLookup (seedInstances insts) k :=
            lookup_instFold_notMem e1.instances _ k hne1
        _ = mapLookup (mergeEvent (seedInstances insts) e2) k :=
            (lookup_instFold_notMem e2.instances _ k hne2).symm
        _ = mapLookup (mergeEvent (mergeEvent (seedInstances insts) e2) e1) k :=
            (lookup_instFold_notMem e1.instances _ k hne1).symm

/-- Witness for C1: concrete evaluation at one seeded table, two
disjoint events and one key. -/
theorem C1_resource_table_upsert_witness :
    resourceRun (seedInstances [part01]) [⟨[part01], .healthy⟩]
      = specFoldTable (seedInstances [part01]) [⟨[part01], .healthy⟩]
    ∧ mapLookup
        (resourceRun (seedInstances [part01])
          [⟨[part01], .healthy⟩, ⟨[.netbw "eth0" 0 devA], .healthy⟩]) "01"
      = mapLookup
          (resourceRun (seedInstances [part01])
            [⟨[.netbw "eth0" 0 devA], .healthy⟩, ⟨[part01], .healthy⟩]) "01" := by
  refine ⟨(C1_resource_table_upsert [part01] [⟨[part01], .healthy⟩]).1, ?_⟩
  refine (C1_resource_table_upsert [part01] []).2.2
    ⟨[part01], .healthy⟩ ⟨[.netbw "eth0" 0 devA], .healthy⟩ ?_ "01"
  intro i hi j hj
  simp only [List.mem_singleton] at hi hj
  subst hi; subst hj
  decide

/-- Claim C3, evaluated at the failing input: the claim says that merging
a `HealthEvent` with verdict `Unhealthy` for instance identity `01`
pins that instance's reported health to `Unhealthy`.  The code's
authority loop (`resource.run`, partition.go:258-263) stores the raw
event instances and never consults the event's verdict, so the stored
instance's reported health is its live probe — `Healthy` for a
partition — not `Unhealthy`.  The `healthInstance` wrapper
(partition.go:189-203) implements exactly the claimed pinning but is
never constructed by `resource.run`. -/
theorem C3_unhealthy_verdict_dropped :
    resourceRun (seedInstances [part01]) [⟨[part01], .unhealthy⟩] = [("01", part01)]
    ∧ (mapLookup (resourceRun (seedInstances [part01]) [⟨[part01], .unhealthy⟩]) "01").map
        InstanceV.health = some .healthy
    ∧ InstanceV.health (.wrapped part01 .unhealthy) = .unhealthy := by
  refine ⟨rfl, rfl, rfl⟩

/-- Claim C4, evaluated at the failing input: `generic.Parent`
(udev.go:75-80) resolves an unpopulated parent by looking up
`g.dev.Syspath()` — the device's own identity — in the table, so with
both `sda1` and its real parent `sda` present it returns the `sda1`
table entry (the child itself), not the parent and not `nil`. -/
theorem C4_parent_lookup_uses_own_id :
    genericParent [(Device.id sda1, sda1), (Device.id sdaDev, sdaDev)] sda1 = some sda1
    ∧ Device.parentField sda1 = none
    ∧ Device.id sda1 ≠ Device.id sdaDev := by
  refine ⟨rfl, rfl, by decide⟩

/-- The device-ID loop on fully resolvable ids reaches the end of the
list and returns the accumulated merge. -/
theorem allocateSubGo_resolved (instances : List (String × InstanceV))
    (ids : List String) (acc : CAResponse)
    (h : ∀ id ∈ ids, mapLookup instances id ≠ none) :
    allocateSubGo instances acc ids
      = .ok (ids.foldl
          (fun a id =>
            match mapLookup instances id with
            | none => a
            | some inst => mergeResponsesList [a, inst.allocate])
          acc) := by
  induction ids generalizing acc with
  | nil => rfl
  | cons id rest ih =>
    have h0 : mapLookup instances id ≠ none := h id (by simp)
    cases hl : mapLookup instances id with
    | none => exact absurd hl h0
    | some inst =>
      simp only [allocateSubGo, hl, List.foldl_cons]
      exact ih _ (fun j hj => h j (by simp [hj]))

/-- The device-ID loop aborts with `NotFound` at the first unresolved id. -/
theorem allocateSubGo_abort (instances : List (String × InstanceV))
    (ids1 ids2 : List String) (bad : String) (acc : CAResponse)
    (h1 : ∀ id ∈ ids1, mapLookup instances id ≠ none)
    (hbad : mapLookup instances bad = none) :
    allocateSubGo instances acc (ids1 ++ bad :: ids2) = .error (.notFound bad) := by
  induction ids1 generalizing acc with
  | nil => simp only [List.nil_append, allocateSubGo, hbad]
  | cons id rest ih =>
    have h0 : mapLookup instances id ≠ none := h1 id (by simp)
    cases hl : mapLookup instances id with
    | none => exact absurd hl h0
    | some inst =>
      simp only [List.cons_append, allocateSubGo, hl]
      exact ih _ (fun j hj => h1 j (by simp [hj]))

/-- The sub-request loop on fully resolvable requests returns a response
per sub-request, in order. -/
theorem pluginAllocateGo_resolved (instances : List (String × InstanceV))
    (requests : List (List String)) (acc : List CAResponse)
    (h : ∀ ids ∈ requests, ∀ id ∈ ids, mapLookup instances id ≠ none) :
    pluginAllocateGo instances acc requests
      = .ok (acc ++ requests.map (specSubResponse instances)) := by
  induction requests generalizing acc with
  | nil => simp [pluginAllocateGo]
  | cons ids rest ih =>
    have hsub := allocateSubGo_resolved instances ids CAResponse.empty (h ids (by simp))
    simp only [pluginAllocateGo, hsub]
    rw [ih _ (fun l hl => h l (by simp [hl]))]
    simp [specSubResponse]

/-- The sub-request loop aborts the whole call at the first unresolved
id. -/
theorem pluginAllocateGo_abort (instances : List (String × InstanceV))
    (rs1 rest : List (List String)) (ids1 ids2 : List String) (bad : String)
    (acc : List CAResponse)
    (hres : ∀ ids ∈ rs1, ∀ id ∈ ids, mapLookup instances id ≠ none)
    (h1 : ∀ id ∈ ids1, mapLookup instances id ≠ none)
    (hbad : mapLookup instances bad = none) :
    pluginAllocateGo instances acc (rs1 ++ (ids1 ++ bad :: ids2) :: rest)
      = .error (.notFound bad) := by
  induction rs1 generalizing acc with
  | nil =>
    simp only [List.nil_append, pluginAllocateGo,
      allocateSubGo_abort instances ids1 ids2 bad CAResponse.empty h1 hbad]
  | cons ids rs ih =>
    have hsub := allocateSubGo_resolved instances ids CAResponse.empty (hres ids (by simp))
    simp only [List.cons_append, pluginAllocateGo, hsub]
    exact ih _ (fun l hl => hres l (by simp [hl]))

/-- Claim C5 counterexample: with instance table `{01 ↦ part01}` and the
two sub-requests `[["bogus"], ["01"]]`, `Allocate` fails the ENTIRE RPC
with `NotFound` — no container response is produced, so the second
sub-request, although fully resolvable (second conjunct), is not
served.  This contradicts the claim that other sub-requests are still
served. -/
theorem C5_allocate_counterexample :
    pluginAllocate [("01", part01)] [["bogus"], ["01"]] = .error (.notFound "bogus")
    ∧ mapLookup [("01", part01)] "01" = some part01 :=
  ⟨rfl, rfl⟩

/-- Claim C5 (amended): each requested identity is looked up in the
`Resource.Instances()` snapshot; when every identity of every
sub-request resolves, the response carries one merged
`ContainerAllocateResponse` per sub-request — device specs and mounts
appended, environment variables and annotations merged by key-overwrite
union, in device-ID order; an unresolved identity fails the WHOLE
Allocate request (all sub-requests) with a `NotFound` error. -/
theorem C5_allocate_amended (instances : List (String × InstanceV)) :
    (∀ requests : List (List String),
      (∀ ids ∈ requests, ∀ id ∈ ids, mapLookup instances id ≠ none) →
      pluginAllocate instances requests
        = .ok (requests.map (specSubResponse instances)))
    ∧ (∀ (rs1 rest : List (List String)) (ids1 ids2 : List String) (bad : String),
        (∀ ids ∈ rs1, ∀ id ∈ ids, mapLookup instances id ≠ none) →
        (∀ id ∈ ids1, mapLookup instances id ≠ none) →
        mapLookup instances bad = none →
        pluginAllocate instances (rs1 ++ (ids1 ++ bad :: ids2) :: rest)
          = .error (.notFound bad)) := by
  constructor
  · intro requests h
    simpa using pluginAllocateGo_resolved instances requests [] h
  · intro rs1 rest ids1 ids2 bad hres h1 hbad
    exact pluginAllocateGo_abort instances rs1 rest ids1 ids2 bad [] hres h1 hbad

/-- Witness for C5 (amended), at a concrete table and concrete requests. -/
theorem C5_allocate_amended_witness :
    pluginAllocate [("01", part01)] [["01"]]
      = .ok [specSubResponse [("01", part01)] ["01"]]
    ∧ pluginAllocate [("01", part01)] [["01"], ["bogus"]]
      = .error (.notFound "bogus") := by
  have hlook : mapLookup [("01", part01)] "01" = some part01 := rfl
  have hbogus : mapLookup [("01", part01)] "bogus" = none := rfl
  have hall : ∀ ids ∈ [["01"]], ∀ id ∈ ids, mapLookup [("01", part01)] id ≠ none := by
    intro ids hids id hid
    rw [List.mem_singleton] at hids
    subst hids
    rw [List.mem_singleton] at hid
    subst hid
    rw [hlook]
    simp
  constructor
  · exact (C5_allocate_amended [("01", part01)]).1 [["01"]] hall
  · refine (C5_allocate_amended [("01", part01)]).2 [["01"]] [] [] [] "bogus" hall ?_ hbogus
    intro id hid
    simp at hid

/-- No `Mux` option writes the submit timeout, so any option list leaves
it at the starting value. -/
theorem foldl_applyMuxOption_timeout (c : MuxConfig) (opts : List MuxOption) :
    (opts.foldl applyMuxOption c).submitTimeoutMs = c.submitTimeoutMs := by
  induction opts generalizing c with
  | nil => rfl
  | cons o rest ih =>
    cases o with
    | buffered n => exact ih { c with inBufSize := n }
    | withLogger => exact ih c

/-- Claim C7: `Mux.Submit` returns nil when the queue accepts the value,
and otherwise waits only the configured timeout — 1000 ms under every
option list, since no option overrides it — and then returns a timeout
error instead of blocking; and the fan-out loop submits a value to
every registered sink independently, so one failing sink does not
prevent delivery to the others. -/
theorem C7_mux_submit_timeout (opts : List MuxOption) (cfg : MuxConfig) :
    (makeMuxConfig opts).submitTimeoutMs = 1000
    ∧ muxSubmit cfg true = .accepted
    ∧ muxSubmit cfg false = .timedOut cfg.submitTimeoutMs
    ∧ ∀ {α : Type} (sinks1 sinks2 : List (SinkSt α)) (s : SinkSt α) (v : α),
        muxFanout (sinks1 ++ s :: sinks2) v
          = muxFanout sinks1 v ++ (sinkSubmit s v).1 :: muxFanout sinks2 v
        ∧ (s.failing = false → (sinkSubmit s v).1.received = s.received ++ [v]) := by
  refine ⟨foldl_applyMuxOption_timeout _ opts, rfl, rfl, ?_⟩
  intro α sinks1 sinks2 s v
  constructor
  · simp [muxFanout]
  · intro hs
    simp [sinkSubmit, hs]

/-- Witness for C7: one failing sink ahead of one working sink; the
working sink still receives the value. -/
theorem C7_mux_submit_timeout_witness :
    muxFanout [(⟨[], true⟩ : SinkSt Nat), ⟨[], false⟩] 7
      = muxFanout [(⟨[], true⟩ : SinkSt Nat)] 7
        ++ (sinkSubmit (⟨[], false⟩ : SinkSt Nat) 7).1 :: muxFanout [] 7
    ∧ (sinkSubmit (⟨[], false⟩ : SinkSt Nat) 7).1.received = [] ++ [7] := by
  have h := (C7_mux_submit_timeout [] ⟨1000, 0⟩).2.2.2
    [(⟨[], true⟩ : SinkSt Nat)] [] ⟨[], false⟩ 7
  exact ⟨h.1, h.2 rfl⟩

/-- Claim C9: a kernel remove event for an identity absent from the table
still publishes a `Removed` event, whose device is `nil`, and leaves
the table unchanged; the Scatter's removed handler on a nil device
returns after logging without touching the routing table or any
resource. -/
theorem C9_remove_absent_safe (st : MonState) (cfg : ScatterCfg) (sst : ScatterState)
    (dev : Device)
    (hrun : st.stopped = false)
    (habs : mapLookup st.table (Device.id dev) = none) :
    monStep st (.kernel "remove" dev) = (st, [.publish (.removed none)])
    ∧ scatterStep cfg sst (.removed none) = sst := by
  refine ⟨?_, rfl⟩
  simp only [monStep, hrun, Bool.false_eq_true, if_false]
  rw [if_neg (by decide), if_pos (by decide), habs, mapDelete_absent st.table _ habs,
    ← hrun]

/-- Witness for C9: a one-entry table and a remove for a different
identity. -/
theorem C9_remove_absent_safe_witness :
    monStep ⟨[("/sys/a", devA)], [], false⟩ (.kernel "remove" devB)
      = (⟨[("/sys/a", devA)], [], false⟩, [.publish (.removed none)])
    ∧ scatterStep ⟨fun _ => .ok none, fun _ => .ok [], fun _ => true⟩ ⟨[], [], 0⟩
        (.removed none) = ⟨[], [], 0⟩ :=
  C9_remove_absent_safe ⟨[("/sys/a", devA)], [], false⟩
    ⟨fun _ => .ok none, fun _ => .ok [], fun _ => true⟩ ⟨[], [], 0⟩ devB rfl rfl

/-- Claim C10: when the resource name is fresh, plugin creation succeeds
and kubelet registration fails, `Registry.Add` returns an error while
the created plugin stays in the plugin set — so it is iterated by the
aggregate health probe and by the mass re-registration (`hup`). -/
theorem C10_registry_add_not_atomic (st : RegState) (name : String)
    (probeFails : Nat → Bool)
    (hfresh : mapLookup st.plugins name = none)
    (hprobe : probeFails st.nextPid = true) :
    (registryAdd true false st name).2 = .error "failed to register"
    ∧ mapLookup (registryAdd true false st name).1.plugins name = some st.nextPid
    ∧ name ∈ hupTargets (registryAdd true false st name).1
    ∧ name ∈ healthzUnhealthy probeFails (registryAdd true false st name).1 := by
  have hreg : registryAdd true false st name
      = ({ plugins := mapInsert st.plugins name st.nextPid, nextPid := st.nextPid + 1 },
         .error "failed to register") := by
    simp [registryAdd, hfresh]
  refine ⟨by rw [hreg], ?_, ?_, ?_⟩
  · rw [hreg]
    simp [mapLookup_mapInsert]
  · rw [hreg]
    exact List.mem_map_of_mem Prod.fst (mem_mapInsert_self st.plugins name st.nextPid)
  · rw [hreg]
    exact List.mem_filterMap.mpr
      ⟨(name, st.nextPid), mem_mapInsert_self st.plugins name st.nextPid, by simp [hprobe]⟩

/-- Witness for C10: empty registry, fresh name, failing register and a
probe that fails for the stored plugin. -/
theorem C10_registry_add_not_atomic_witness :
    (registryAdd true false ⟨[], 0⟩ "ydb.tech/part-01").2 = .error "failed to register"
    ∧ mapLookup (registryAdd true false ⟨[], 0⟩ "ydb.tech/part-01").1.plugins
        "ydb.tech/part-01" = some 0
    ∧ "ydb.tech/part-01" ∈ hupTargets (registryAdd true false ⟨[], 0⟩ "ydb.tech/part-01").1
    ∧ "ydb.tech/part-01"
        ∈ healthzUnhealthy (fun _ => true) (registryAdd true false ⟨[], 0⟩ "ydb.tech/part-01").1 :=
  C10_registry_add_not_atomic ⟨[], 0⟩ "ydb.tech/part-01" (fun _ => true) rfl rfl

/-- Claim C8: the spec's partition scenario.  For the `sda1` device with
partition label `ydb_disk_01`, matcher literal `ydb_disk_` + `(.*)` and
domain `ydb.tech`: the templater yields `{ydb.tech, part-01}`, the
mapper yields exactly one instance with identity `01`, and its
allocation maps the device node to `/dev/allocated/ydb.tech/part/01`
with environment entries for disk ID, model and serial from sysfs
attributes — the serial falling back to the `ID_SERIAL_SHORT` property
and omitted when both sources are empty. -/
theorem C8_partition_scenario :
    partitionTemplater "ydb.tech" "ydb_disk_" sda1 = .ok (some ⟨"ydb.tech", "part-01"⟩)
    ∧ partitionInstanceList "ydb.tech" "ydb_disk_" sda1 = .ok [.part "ydb.tech" "01" sda1]
    ∧ InstanceV.id (.part "ydb.tech" "01" sda1) = "01"
    ∧ (partitionAllocate "ydb.tech" "01" sda1).devices
        = [⟨Device.devNode sda1, "/dev/allocated/ydb.tech/part/01", "rw"⟩]
    ∧ mapLookup (partitionAllocate "ydb.tech" "01" sda1).envs
        "YDB_TECH_PART_01_DISK_ID" = some "naa.5000c500a1b2c3d4"
    ∧ mapLookup (partitionAllocate "ydb.tech" "01" sda1).envs
        "YDB_TECH_PART_01_DISK_MODEL" = some "SAMPLE-SSD"
    ∧ mapLookup (partitionAllocate "ydb.tech" "01" sda1).envs
        "YDB_TECH_PART_01_DISK_SERIAL" = some "S1234567"
    ∧ mapLookup (partitionAllocate "ydb.tech" "01" sda1Fallback).envs
        "YDB_TECH_PART_01_DISK_SERIAL" = some "SHORT99"
    ∧ mapLookup (partitionAllocate "ydb.tech" "01" sda1NoSerial).envs
        "YDB_TECH_PART_01_DISK_SERIAL" = none := by
  exact ⟨rfl, rfl, rfl, by decide, by decide, by decide, by decide, by decide, by decide⟩

/-- A stopped monitor loop performs no action. -/
theorem monStep_stopped (st : MonState) (inp : MonInput) (h : st.stopped = true) :
    monStep st inp = (st, []) := by
  simp [monStep, h]

/-- A running monitor handles a new-subscription request by sending
`Init` with the full current table, registering the sink, then
replying. -/
theorem monStep_newSub (st : MonState) (sid : Nat) (h : st.stopped = false) :
    monStep st (.reqNewSub sid)
      = (st, [.sendInit sid (mapValues st.table), .register sid, .reply]) := by
  simp [monStep, h]

/-- One publish action delivers to exactly the currently registered
sinks. -/
theorem applyActions_publish (subs : List Nat) (ev : EventV) :
    applyActions subs [.publish ev] = (subs, subs.map (fun s => (s, ev))) := by
  simp [applyActions]

/-- The new-subscription action sequence delivers one `Init` to the new
sink and appends it to the registration list. -/
theorem applyActions_newSub (subs : List Nat) (sid : Nat) (devs : List Device) :
    applyActions subs [.sendInit sid devs, .register sid, .reply]
      = (subs ++ [sid], [(sid, .init devs)]) := by
  simp [applyActions]

/-- Deliveries distribute over concatenation. -/
theorem deliveriesTo_append (sid : Nat) (a b : List (Nat × EventV)) :
    deliveriesTo sid (a ++ b) = deliveriesTo sid a ++ deliveriesTo sid b := by
  simp [deliveriesTo, List.filterMap_append]

/-- A sink receives one publish per time it is registered. -/
theorem deliveriesTo_publishMap (sid : Nat) (subs : List Nat) (ev : EventV) :
    deliveriesTo sid (subs.map (fun s => (s, ev)))
      = List.replicate (subs.count sid) ev := by
  induction subs with
  | nil => rfl
  | cons s rest ih =>
    by_cases h : s = sid
    · subst h
      simp [deliveriesTo, List.filterMap_cons, List.count_cons, List.replicate_succ,
        ← ih, deliveriesTo]
    · have h' : s ≠ sid := h
      simp [deliveriesTo, List.filterMap_cons, List.count_cons, h', ← ih, deliveriesTo]

/-- The monitor step reads only the table and the stopped flag; the
subscriber list passes through untouched. -/
theorem monStep_subs_irrel (st : MonState) (s : List Nat) (inp : MonInput) :
    monStep { st with subs := s } inp
      = ({ (monStep st inp).1 with subs := s }, (monStep st inp).2) := by
  obtain ⟨table, subs, stopped⟩ := st
  cases stopped <;> cases inp <;> simp [monStep]
  all_goals split_ifs <;> rfl

/-- What the monitor publishes does not depend on the subscriber list. -/
theorem monPubs_subs_irrel (st : MonState) (s : List Nat) (inputs : List MonInput) :
    monPubs { st with subs := s } inputs = monPubs st inputs := by
  induction inputs generalizing st s with
  | nil => rfl
  | cons inp rest ih =>
    show pubsOf (monStep { st with subs := s } inp).2
        ++ monPubs (monStep { st with subs := s } inp).1 rest
      = pubsOf (monStep st inp).2 ++ monPubs (monStep st inp).1 rest
    rw [monStep_subs_irrel]
    exact congrArg _ (ih (monStep st inp).1 s)

/-- Unfolding of one monitor-trace step. -/
theorem monTrace_cons (st : MonState) (inp : MonInput) (rest : List MonInput) :
    monTrace st (inp :: rest)
      = ((monTrace { (monStep st inp).1 with
            subs := (applyActions st.subs (monStep st inp).2).1 } rest).1,
         (applyActions st.subs (monStep st inp).2).2
           ++ (monTrace { (monStep st inp).1 with
                subs := (applyActions st.subs (monStep st inp).2).1 } rest).2) := rfl

/-- Unfolding of one published-events step. -/
theorem monPubs_cons (st : MonState) (inp : MonInput) (rest : List MonInput) :
    monPubs st (inp :: rest)
      = pubsOf (monStep st inp).2 ++ monPubs (monStep st inp).1 rest := rfl

/-- A trace splits at a queue concatenation. -/
theorem monTrace_append (st : MonState) (a b : List MonInput) :
    monTrace st (a ++ b)
      = ((monTrace (monTrace st a).1 b).1,
         (monTrace st a).2 ++ (monTrace (monTrace st a).1 b).2) := by
  induction a generalizing st with
  | nil => rfl
  | cons inp rest ih =>
    rw [List.cons_append, monTrace_cons, monTrace_cons, ih]
    simp [List.append_assoc]

/-- A running monitor on an add/online kernel event inserts the device
and publishes `Added`. -/
theorem monStep_kernel_addlike (st : MonState) (action : String) (dev : Device)
    (hs : st.stopped = false) (h : action = "add" ∨ action = "online") :
    monStep st (.kernel action dev)
      = ({ st with table := mapInsert st.table dev.id dev },
         [.publish (.added dev)]) := by
  simp only [monStep, hs, Bool.false_eq_true, if_false]
  rw [if_pos h]

/-- A running monitor on a remove/offline kernel event reads the stored
device (possibly `nil`), deletes the identity and publishes `Removed`. -/
theorem monStep_kernel_removelike (st : MonState) (action : String) (dev : Device)
    (hs : st.stopped = false)
    (h1 : ¬(action = "add" ∨ action = "online"))
    (h2 : action = "remove" ∨ action = "offline") :
    monStep st (.kernel action dev)
      = ({ st with table := mapDelete st.table dev.id },
         [.publish (.removed (mapLookup st.table dev.id))]) := by
  simp only [monStep, hs, Bool.false_eq_true, if_false]
  rw [if_neg h1, if_pos h2]

/-- A running monitor ignores kernel events with other action strings. -/
theorem monStep_kernel_other (st : MonState) (action : String) (dev : Device)
    (hs : st.stopped = false)
    (h1 : ¬(action = "add" ∨ action = "online"))
    (h2 : ¬(action = "remove" ∨ action = "offline")) :
    monStep st (.kernel action dev) = (st, []) := by
  simp only [monStep, hs, Bool.false_eq_true, if_false]
  rw [if_neg h1, if_neg h2]

/-- A running monitor answers a state request with only a reply. -/
theorem monStep_reqState (st : MonState) (f : Device → Bool) (hs : st.stopped = false) :
    monStep st (.reqState f) = (st, [.reply]) := by
  simp [monStep, hs]

/-- A running monitor replies to a stop request and terminates the loop. -/
theorem monStep_reqStop (st : MonState) (hs : st.stopped = false) :
    monStep st (.reqStop) = ({ st with stopped := true }, [.reply]) := by
  simp [monStep, hs]

/-- Processing any non-stop input keeps a running monitor running. -/
theorem monStep_keeps_running (st : MonState) (inp : MonInput)
    (h : st.stopped = false) (hni : inp ≠ .reqStop) :
    (monStep st inp).1.stopped = false := by
  cases inp with
  | kernel action dev =>
    by_cases h1 : action = "add" ∨ action = "online"
    · rw [monStep_kernel_addlike st action dev h h1]; exact h
    · by_cases h2 : action = "remove" ∨ action = "offline"
      · rw [monStep_kernel_removelike st action dev h h1 h2]; exact h
      · rw [monStep_kernel_other st action dev h h1 h2]; exact h
  | reqState f => rw [monStep_reqState st f h]; exact h
  | reqNewSub sid => rw [monStep_newSub st sid h]; exact h
  | reqStop => exact absurd rfl hni

/-- Interpreting no actions changes nothing. -/
theorem applyActions_nil (subs : List Nat) : applyActions subs [] = (subs, []) := rfl

/-- A lone reply action neither delivers nor registers. -/
theorem applyActions_reply (subs : List Nat) :
    applyActions subs [.reply] = (subs, []) := rfl

/-- A trace never delivers anything to a sink that is not registered and
is never subscribed, and the sink stays unregistered. -/
theorem monTrace_absent (sid : Nat) (inputs : List MonInput) (st : MonState)
    (hcount : st.subs.count sid = 0)
    (hnosub : MonInput.reqNewSub sid ∉ inputs) :
    deliveriesTo sid (monTrace st inputs).2 = []
    ∧ (monTrace st inputs).1.subs.count sid = 0 := by
  induction inputs generalizing st with
  | nil => exact ⟨rfl, hcount⟩
  | cons inp rest ih =>
    have hnr : MonInput.reqNewSub sid ∉ rest :=
      fun hm => hnosub (List.mem_cons_of_mem _ hm)
    by_cases hstop : st.stopped = true
    · rw [monTrace_cons, monStep_stopped st inp hstop, applyActions_nil]
      dsimp only
      obtain ⟨d, c⟩ := ih st hcount hnr
      exact ⟨by rw [List.nil_append]; exact d, c⟩
    · have hs : st.stopped = false := by simpa using hstop
      cases inp with
      | kernel action dev =>
        by_cases h1 : action = "add" ∨ action = "online"
        · rw [monTrace_cons, monStep_kernel_addlike st action dev hs h1,
            applyActions_publish]
          dsimp only
          obtain ⟨d, c⟩ := ih { st with table := mapInsert st.table dev.id dev } hcount hnr
          refine ⟨?_, c⟩
          rw [deliveriesTo_append, deliveriesTo_publishMap, hcount, d]
          rfl
        · by_cases h2 : action = "remove" ∨ action = "offline"
          · rw [monTrace_cons, monStep_kernel_removelike st action dev hs h1 h2,
              applyActions_publish]
            dsimp only
            obtain ⟨d, c⟩ := ih { st with table := mapDelete st.table dev.id } hcount hnr
            refine ⟨?_, c⟩
            rw [deliveriesTo_append, deliveriesTo_publishMap, hcount, d]
            rfl
          · rw [monTrace_cons, monStep_kernel_other st action dev hs h1 h2,
              applyActions_nil]
            dsimp only
            obtain ⟨d, c⟩ := ih st hcount hnr
            exact ⟨by rw [List.nil_append]; exact d, c⟩
      | reqState f =>
        rw [monTrace_cons, monStep_reqState st f hs, applyActions_reply]
        dsimp only
        obtain ⟨d, c⟩ := ih st hcount hnr
        exact ⟨by rw [List.nil_append]; exact d, c⟩
      | reqNewSub sid' =>
        have hne : sid' ≠ sid := by
          intro h
          subst h
          exact hnosub (List.mem_cons_self _ _)
        rw [monTrace_cons, monStep_newSub st sid' hs, applyActions_newSub]
        dsimp only
        have hc' : (st.subs ++ [sid']).count sid = 0 := by
          simp [List.count_append, hcount, List.count_singleton', hne]
        obtain ⟨d, c⟩ := ih { st with subs := st.subs ++ [sid'] } hc' hnr
        refine ⟨?_, c⟩
        rw [deliveriesTo_append, d]
        simp [deliveriesTo, hne]
      | reqStop =>
        rw [monTrace_cons, monStep_reqStop st hs, applyActions_reply]
        dsimp only
        obtain ⟨d, c⟩ := ih { st with stopped := true } hcount hnr
        exact ⟨by rw [List.nil_append]; exact d, c⟩

/-- A sink registered exactly once, and never re-subscribed, receives
precisely the events the monitor publishes, in order, and stays
registered exactly once. -/
theorem monTrace_present (sid : Nat) (inputs : List MonInput) (st : MonState)
    (hcount : st.subs.count sid = 1)
    (hnosub : MonInput.reqNewSub sid ∉ inputs) :
    deliveriesTo sid (monTrace st inputs).2 = monPubs st inputs
    ∧ (monTrace st inputs).1.subs.count sid = 1 := by
  induction inputs generalizing st with
  | nil => exact ⟨rfl, hcount⟩
  | cons inp rest ih =>
    have hnr : MonInput.reqNewSub sid ∉ rest :=
      fun hm => hnosub (List.mem_cons_of_mem _ hm)
    by_cases hstop : st.stopped = true
    · rw [monTrace_cons, monPubs_cons, monStep_stopped st inp hstop, applyActions_nil]
      dsimp only
      obtain ⟨d, c⟩ := ih st hcount hnr
      refine ⟨?_, c⟩
      rw [List.nil_append, d]
      rfl
    · have hs : st.stopped = false := by simpa using hstop
      cases inp with
      | kernel action dev =>
        by_cases h1 : action = "add" ∨ action = "online"
        · rw [monTrace_cons, monPubs_cons, monStep_kernel_addlike st action dev hs h1,
            applyActions_publish]
          dsimp only
          obtain ⟨d, c⟩ := ih { st with table := mapInsert st.table dev.id dev } hcount hnr
          refine ⟨?_, c⟩
          rw [deliveriesTo_append, deliveriesTo_publishMap, hcount, d]
          rfl
        · by_cases h2 : action = "remove" ∨ action = "offline"
          · rw [monTrace_cons, monPubs_cons,
              monStep_kernel_removelike st action dev hs h1 h2, applyActions_publish]
            dsimp only
            obtain ⟨d, c⟩ := ih { st with table := mapDelete st.table dev.id } hcount hnr
            refine ⟨?_, c⟩
            rw [deliveriesTo_append, deliveriesTo_publishMap, hcount, d]
            rfl
          · rw [monTrace_cons, monPubs_cons, monStep_kernel_other st action dev hs h1 h2,
              applyActions_nil]
            dsimp only
            obtain ⟨d, c⟩ := ih st hcount hnr
            refine ⟨?_, c⟩
            rw [List.nil_append, d]
            rfl
      | reqState f =>
        rw [monTrace_cons, monPubs_cons, monStep_reqState st f hs, applyActions_reply]
        dsimp only
        obtain ⟨d, c⟩ := ih st hcount hnr
        refine ⟨?_, c⟩
        rw [List.nil_append, d]
        rfl
      | reqNewSub sid' =>
        have hne : sid' ≠ sid := by
          intro h
          subst h
          exact hnosub (List.mem_cons_self _ _)
        rw [monTrace_cons, monPubs_cons, monStep_newSub st sid' hs, applyActions_newSub]
        dsimp only
        have hc' : (st.subs ++ [sid']).count sid = 1 := by
          simp [List.count_append, hcount, List.count_singleton', hne]
        obtain ⟨d, c⟩ := ih { st with subs := st.subs ++ [sid'] } hc' hnr
        refine ⟨?_, c⟩
        rw [deliveriesTo_append, d, monPubs_subs_irrel]
        simp [deliveriesTo, hne, pubsOf]
      | reqStop =>
        rw [monTrace_cons, monPubs_cons, monStep_reqStop st hs, applyActions_reply]
        dsimp only
        obtain ⟨d, c⟩ := ih { st with stopped := true } hcount hnr
        refine ⟨?_, c⟩
        rw [List.nil_append, d]
        rfl

/-- A monitor that is running stays running while no stop request is
processed. -/
theorem monTrace_keeps_running (st : MonState) (inputs : List MonInput)
    (h : st.stopped = false) (hns : MonInput.reqStop ∉ inputs) :
    (monTrace st inputs).1.stopped = false := by
  induction inputs generalizing st with
  | nil => exact h
  | cons inp rest ih =>
    rw [monTrace_cons]
    dsimp only
    refine ih _ ?_ (fun hm => hns (List.mem_cons_of_mem _ hm))
    exact monStep_keeps_running st inp h
      (fun he => hns (by rw [← he]; exact List.mem_cons_self _ _))

/-- Whatever one monitor iteration publishes is an `Added` or a
`Removed`, never an `Init`. -/
theorem monStep_pubs_not_init (st : MonState) (inp : MonInput) (ev : EventV)
    (h : ev ∈ pubsOf (monStep st inp).2) : ∀ devs, ev ≠ .init devs := by
  by_cases hstop : st.stopped = true
  · rw [monStep_stopped st inp hstop] at h
    simp [pubsOf] at h
  · have hs : st.stopped = false := by simpa using hstop
    cases inp with
    | kernel action dev =>
      by_cases h1 : action = "add" ∨ action = "online"
      · rw [monStep_kernel_addlike st action dev hs h1] at h
        simp only [pubsOf, List.filterMap_cons, List.filterMap_nil, List.mem_singleton] at h
        subst h
        intro devs heq
        exact EventV.noConfusion heq
      · by_cases h2 : action = "remove" ∨ action = "offline"
        · rw [monStep_kernel_removelike st action dev hs h1 h2] at h
          simp only [pubsOf, List.filterMap_cons, List.filterMap_nil,
            List.mem_singleton] at h
          subst h
          intro devs heq
          exact EventV.noConfusion heq
        · rw [monStep_kernel_other st action dev hs h1 h2] at h
          simp [pubsOf] at h
    | reqState f =>
      rw [monStep_reqState st f hs] at h
      simp [pubsOf] at h
    | reqNewSub sid =>
      rw [monStep_newSub st sid hs] at h
      simp [pubsOf] at h
    | reqStop =>
      rw [monStep_reqStop st hs] at h
      simp [pubsOf] at h

/-- Nothing the monitor ever publishes on the mux is an `Init`. -/
theorem monPubs_no_init (st : MonState) (inputs : List MonInput) :
    ∀ ev ∈ monPubs st inputs, ∀ devs, ev ≠ .init devs := by
  induction inputs generalizing st with
  | nil => intro ev h; simp [monPubs] at h
  | cons inp rest ih =>
    intro ev hm
    rw [monPubs_cons] at hm
    rcases List.mem_append.mp hm with h | h
    · exact monStep_pubs_not_init st inp ev h
    · exact ih _ ev h

/-- Claim C2: for a fresh Discovery subscriber whose subscription request
arrives after the input queue `pre` and before `post`, the monitor
handles the request by sending `Init` carrying the full table at that
moment, then registering the sink, then replying (first conjunct, in
program order); the full delivery stream of that subscriber is exactly
that `Init` followed by every event published while processing `post`
(second conjunct) — so nothing is delivered before the `Init`, nothing
published afterwards is missed, and, as every published event is
`Added`/`Removed` (third conjunct), exactly one `Init` is received. -/
theorem C2_subscribe_init_protocol (st0 : MonState) (sid : Nat)
    (pre post : List MonInput)
    (hc0 : st0.subs.count sid = 0)
    (hs0 : st0.stopped = false)
    (hpre_sub : MonInput.reqNewSub sid ∉ pre)
    (hpre_stop : MonInput.reqStop ∉ pre)
    (hpost_sub : MonInput.reqNewSub sid ∉ post) :
    (monStep (monTrace st0 pre).1 (.reqNewSub sid)).2
      = [.sendInit sid (mapValues (monTrace st0 pre).1.table), .register sid, .reply]
    ∧ deliveriesTo sid (monTrace st0 (pre ++ .reqNewSub sid :: post)).2
      = .init (mapValues (monTrace st0 pre).1.table)
          :: monPubs (monTrace st0 pre).1 post
    ∧ (∀ ev ∈ monPubs (monTrace st0 pre).1 post, ∀ devs, ev ≠ .init devs) := by
  have hst1_stop : (monTrace st0 pre).1.stopped = false :=
    monTrace_keeps_running st0 pre hs0 hpre_stop
  have hst1_cnt : (monTrace st0 pre).1.subs.count sid = 0 :=
    (monTrace_absent sid pre st0 hc0 hpre_sub).2
  refine ⟨?_, ?_, monPubs_no_init _ post⟩
  · rw [monStep_newSub _ sid hst1_stop]
  · rw [monTrace_append]
    dsimp only
    rw [deliveriesTo_append, (monTrace_absent sid pre st0 hc0 hpre_sub).1,
      List.nil_append, monTrace_cons, monStep_newSub _ sid hst1_stop,
      applyActions_newSub]
    dsimp only
    rw [deliveriesTo_append]
    have hcnt1 : ((monTrace st0 pre).1.subs ++ [sid]).count sid = 1 := by
      simp [List.count_append, hst1_cnt]
    obtain ⟨d, c⟩ := monTrace_present sid post
      { (monTrace st0 pre).1 with subs := (monTrace st0 pre).1.subs ++ [sid] }
      hcnt1 hpost_sub
    rw [d, monPubs_subs_irrel]
    simp [deliveriesTo]

/-- Witness for C2: empty initial monitor, one add before and one add
after the subscription of sink 0. -/
theorem C2_subscribe_init_protocol_witness :
    deliveriesTo 0 (monTrace ⟨[], [], false⟩
        ([.kernel "add" devA] ++ .reqNewSub 0 :: [.kernel "add" devB])).2
      = .init (mapValues (monTrace ⟨[], [], false⟩ [.kernel "add" devA]).1.table)
          :: monPubs (monTrace ⟨[], [], false⟩ [.kernel "add" devA]).1
              [.kernel "add" devB]
    ∧ deliveriesTo 0 (monTrace ⟨[], [], false⟩
        ([.kernel "add" devA] ++ .reqNewSub 0 :: [.kernel "add" devB])).2
      = [.init [devA], .added devB] := by
  have h := (C2_subscribe_init_protocol ⟨[], [], false⟩ 0
    [.kernel "add" devA] [.kernel "add" devB] rfl rfl
    (by intro hm; exact MonInput.noConfusion (List.mem_singleton.mp hm))
    (by intro hm; exact MonInput.noConfusion (List.mem_singleton.mp hm))
    (by intro hm; exact MonInput.noConfusion (List.mem_singleton.mp hm))).2.1
  exact ⟨h, h.trans rfl⟩

/-- The removed handler never touches the routing table. -/
theorem scatterRemoved_routes (cfg : ScatterCfg) (st : ScatterState)
    (dev : Option Device) :
    (scatterRemoved cfg st dev).routes = st.routes := by
  cases dev with
  | none => rfl
  | some d =>
    cases htpl : cfg.templater d with
    | error e => simp [scatterRemoved, htpl]
    | ok o =>
      cases o with
      | none => simp [scatterRemoved, htpl]
      | some tpl =>
        cases hmap : cfg.mapper d with
        | error e => simp [scatterRemoved, htpl, hmap]
        | ok insts =>
          cases hr : mapLookup st.routes tpl with
          | none => simp [scatterRemoved, htpl, hmap, hr]
          | some rid => simp [scatterRemoved, htpl, hmap, hr]

/-- The added handler never deletes or replaces an existing route. -/
theorem scatterAdded_routes_extend (cfg : ScatterCfg) (st : ScatterState)
    (dev : Option Device) (tpl : ResourceTemplateV) (rid : Nat)
    (h : mapLookup st.routes tpl = some rid) :
    mapLookup (scatterAdded cfg st dev).routes tpl = some rid := by
  cases dev with
  | none => exact h
  | some d =>
    cases htpl : cfg.templater d with
    | error e => simpa [scatterAdded, htpl] using h
    | ok o =>
      cases o with
      | none => simpa [scatterAdded, htpl] using h
      | some tpl' =>
        cases hmap : cfg.mapper d with
        | error e => simpa [scatterAdded, htpl, hmap] using h
        | ok insts =>
          cases hr : mapLookup st.routes tpl' with
          | some rid' => simpa [scatterAdded, htpl, hmap, hr] using h
          | none =>
            have hne : tpl' ≠ tpl := by
              intro he
              rw [he, h] at hr
              exact Option.noConfusion hr
            by_cases hreg : cfg.regOk (resourceName tpl') = true
            · simp only [scatterAdded, htpl, hmap, hr, hreg, if_true]
              rw [mapLookup_mapInsert, if_neg hne]
              exact h
            · simp only [scatterAdded, htpl, hmap, hr]
              rw [if_neg (by simpa using hreg)]
              exact h

/-- One Scatter step (of any event) never deletes or replaces an
existing route. -/
theorem scatterStep_routes_extend (cfg : ScatterCfg) (st : ScatterState)
    (ev : EventV) (tpl : ResourceTemplateV) (rid : Nat)
    (h : mapLookup st.routes tpl = some rid) :
    mapLookup (scatterStep cfg st ev).routes tpl = some rid := by
  cases ev with
  | added dev => exact scatterAdded_routes_extend cfg st (some dev) tpl rid h
  | removed dev => rw [scatterStep, scatterRemoved_routes]; exact h
  | init devs =>
    show mapLookup (devs.foldl (fun s d => scatterAdded cfg s (some d)) st).routes tpl
      = some rid
    induction devs generalizing st with
    | nil => exact h
    | cons d rest ih =>
      exact ih _ (scatterAdded_routes_extend cfg st (some d) tpl rid h)

/-- Evaluation of the added handler when the template is fresh and
registration succeeds: a new resource is seeded and routed under the
next id. -/
theorem scatterAdded_fresh (cfg : ScatterCfg) (st : ScatterState) (d : Device)
    (tpl : ResourceTemplateV) (insts : List InstanceV)
    (ht : cfg.templater d = .ok (some tpl))
    (hm : cfg.mapper d = .ok insts)
    (hfresh : mapLookup st.routes tpl = none)
    (hreg : cfg.regOk (resourceName tpl) = true) :
    scatterAdded cfg st (some d)
      = { routes := mapInsert st.routes tpl st.nextRid
          store := mapInsert st.store st.nextRid (seedInstances insts)
          nextRid := st.nextRid + 1 } := by
  simp [scatterAdded, ht, hm, hfresh, hreg]

/-- Evaluation of the added handler when a route already exists: a
healthy delta is submitted to that resource and nothing else changes. -/
theorem scatterAdded_existing (cfg : ScatterCfg) (st : ScatterState) (d : Device)
    (tpl : ResourceTemplateV) (insts : List InstanceV) (rid : Nat)
    (ht : cfg.templater d = .ok (some tpl))
    (hm : cfg.mapper d = .ok insts)
    (hr : mapLookup st.routes tpl = some rid) :
    scatterAdded cfg st (some d)
      = { st with store := storeSubmit st.store rid ⟨insts, .healthy⟩ } := by
  simp [scatterAdded, ht, hm, hr]

/-- Claim C6: two devices with equal (domain, prefix) templates are routed
to the same Resource — the second matching device creates no new
resource and its delta is submitted to the existing one; two devices
with different templates get two distinct Resources with independently
stored instance tables; and the template→Resource map is append-only —
no step (added, removed, init, or any failure path) deletes or replaces
an existing entry. -/
theorem C6_scatter_template_routing (cfg : ScatterCfg) (st : ScatterState)
    (d1 d2 : Device) (tpl1 tpl2 : ResourceTemplateV)
    (insts1 insts2 : List InstanceV)
    (ht1 : cfg.templater d1 = .ok (some tpl1))
    (hm1 : cfg.mapper d1 = .ok insts1)
    (ht2 : cfg.templater d2 = .ok (some tpl2))
    (hm2 : cfg.mapper d2 = .ok insts2)
    (hfresh1 : mapLookup st.routes tpl1 = none)
    (hreg1 : cfg.regOk (resourceName tpl1) = true) :
    (∀ (ev : EventV) (tpl : ResourceTemplateV) (rid : Nat),
        mapLookup st.routes tpl = some rid →
        mapLookup (scatterStep cfg st ev).routes tpl = some rid)
    ∧ (tpl2 = tpl1 →
        mapLookup (scatterAdded cfg st (some d1)).routes tpl1 = some st.nextRid
        ∧ scatterAdded cfg (scatterAdded cfg st (some d1)) (some d2)
            = { scatterAdded cfg st (some d1) with
                store := storeSubmit (scatterAdded cfg st (some d1)).store
                  st.nextRid ⟨insts2, .healthy⟩ })
    ∧ (tpl2 ≠ tpl1 → mapLookup st.routes tpl2 = none →
        cfg.regOk (resourceName tpl2) = true →
        mapLookup (scatterAdded cfg (scatterAdded cfg st (some d1)) (some d2)).routes
            tpl1 = some st.nextRid
        ∧ mapLookup (scatterAdded cfg (scatterAdded cfg st (some d1)) (some d2)).routes
            tpl2 = some (st.nextRid + 1)
        ∧ st.nextRid ≠ st.nextRid + 1
        ∧ mapLookup (scatterAdded cfg (scatterAdded cfg st (some d1)) (some d2)).store
            st.nextRid = some (seedInstances insts1)
        ∧ mapLookup (scatterAdded cfg (scatterAdded cfg st (some d1)) (some d2)).store
            (st.nextRid + 1) = some (seedInstances insts2)) := by
  have h1 := scatterAdded_fresh cfg st d1 tpl1 insts1 ht1 hm1 hfresh1 hreg1
  have hlook1 : mapLookup (scatterAdded cfg st (some d1)).routes tpl1 = some st.nextRid := by
    rw [h1]
    show mapLookup (mapInsert st.routes tpl1 st.nextRid) tpl1 = some st.nextRid
    rw [mapLookup_mapInsert, if_pos rfl]
  refine ⟨fun ev tpl rid h => scatterStep_routes_extend cfg st ev tpl rid h, ?_, ?_⟩
  · intro heq
    subst heq
    exact ⟨hlook1, scatterAdded_existing cfg _ d2 tpl2 insts2 st.nextRid ht2 hm2 hlook1⟩
  · intro hne hfresh2 hreg2
    have hlook2 : mapLookup (scatterAdded cfg st (some d1)).routes tpl2 = none := by
      rw [h1]
      show mapLookup (mapInsert st.routes tpl1 st.nextRid) tpl2 = none
      rw [mapLookup_mapInsert, if_neg (fun he => hne he.symm)]
      exact hfresh2
    have h2 := scatterAdded_fresh cfg _ d2 tpl2 insts2 ht2 hm2 hlook2 hreg2
    rw [h2, h1]
    dsimp only
    refine ⟨?_, ?_, Nat.ne_of_lt (Nat.lt_succ_self _), ?_, ?_⟩
    · rw [mapLookup_mapInsert, if_neg hne, mapLookup_mapInsert, if_pos rfl]
    · rw [mapLookup_mapInsert, if_pos rfl]
    · rw [mapLookup_mapInsert, if_neg (Nat.ne_of_gt (Nat.lt_succ_self _)),
        mapLookup_mapInsert, if_pos rfl]
    · rw [mapLookup_mapInsert, if_pos rfl]

/-- Witness for C6: two example devices with distinct templates starting
from the empty router. -/
theorem C6_scatter_template_routing_witness :
    mapLookup (scatterAdded cfgW (scatterAdded cfgW ⟨[], [], 0⟩ (some devA))
        (some devB)).routes ⟨"ydb.tech", "part-a"⟩ = some 0
    ∧ mapLookup (scatterAdded cfgW (scatterAdded cfgW ⟨[], [], 0⟩ (some devA))
        (some devB)).routes ⟨"ydb.tech", "part-b"⟩ = some 1
    ∧ mapLookup (scatterAdded cfgW (scatterAdded cfgW ⟨[], [], 0⟩ (some devA))
        (some devB)).store 0 = some (seedInstances [part01])
    ∧ mapLookup (scatterAdded cfgW (scatterAdded cfgW ⟨[], [], 0⟩ (some devA))
        (some devB)).store 1 = some (seedInstances [part01]) := by
  have h := (C6_scatter_template_routing cfgW ⟨[], [], 0⟩ devA devB
    ⟨"ydb.tech", "part-a"⟩ ⟨"ydb.tech", "part-b"⟩ [part01] [part01]
    rfl rfl rfl rfl rfl rfl).2.2 (by decide) rfl rfl
  exact ⟨h.1, h.2.1, h.2.2.2.1, h.2.2.2.2⟩

end UdevMgr
